import Mathlib

/-!
# Upload form controller (`app/static/app.js`)

A shallow embedding of the script that wires the drop zone and the file
picker of the PDF upload form. The DOM elements the script closes over
(`fileInput`, `fileNameEl`, `submitBtn`, `dropzone`) become fields of a
`Page` record, each listener becomes a function on that record, and the
browser's `alert` becomes an append to a log of shown messages.
-/

namespace TransfoPdf

/-- A `File` object as the script reads it: `file.name` and `file.type`. -/
structure File where
  name : String
  type : String
  deriving DecidableEq

/-- The elements bound at lines 2-5, reduced to the properties the script
reads or writes: `fileInput.files`, `fileNameEl.textContent`,
`submitBtn.disabled`, `dropzone.classList`, and the messages passed to
`alert` so far (oldest first). -/
structure Page where
  files : List File
  textContent : String
  disabled : Bool
  classList : List String
  alerts : List String
  deriving DecidableEq

/-- The four drag event types the script registers listeners for. -/
inductive DragType where
  | dragenter
  | dragover
  | dragleave
  | drop
  deriving DecidableEq

/-- The `cancelable` attribute of a drag event the browser dispatches: the
HTML standard makes `dragenter`, `dragover` and `drop` cancelable and
`dragleave` not. -/
def DragType.cancelable : DragType → Bool
  | .dragenter => true
  | .dragover => true
  | .dragleave => false
  | .drop => true

/-- A drag event as the listeners use it: `e.type`, `e.dataTransfer.files`
(which the drop listener tests for truthiness, hence the `Option`),
`e.defaultPrevented` and the flag set by `e.stopPropagation()`. -/
structure DragEvent where
  type : DragType
  files : Option (List File)
  defaultPrevented : Bool
  propagationStopped : Bool
  deriving DecidableEq

/-- `e.cancelable`. -/
def DragEvent.cancelable (e : DragEvent) : Bool := e.type.cancelable

/-- The `DataTransfer` object built in `setFile`: only its file list matters. -/
structure DataTransfer where
  files : List File
  deriving DecidableEq

/-- `new DataTransfer()`: no items. -/
def DataTransfer.new : DataTransfer := ⟨[]⟩

/-- `dt.items.add(file)`: the file is appended to the item list. -/
def DataTransfer.add (dt : DataTransfer) (file : File) : DataTransfer :=
  ⟨dt.files ++ [file]⟩

/-- `e.preventDefault()`: the canceled flag is set when the event is
cancelable; on an event that is not, the call does nothing. -/
def DragEvent.preventDefault (e : DragEvent) : DragEvent :=
  if e.cancelable then { e with defaultPrevented := true } else e

/-- `e.stopPropagation()`. It does not keep the other listeners of the same
element from running. -/
def DragEvent.stopPropagation (e : DragEvent) : DragEvent :=
  { e with propagationStopped := true }

/-- `classList.add(token)`: the token is added unless it is already there. -/
def classListAdd (cl : List String) (token : String) : List String :=
  if token ∈ cl then cl else cl ++ [token]

/-- `classList.remove(token)`: every occurrence of the token is removed. -/
def classListRemove (cl : List String) (token : String) : List String :=
  cl.filter (fun c => c != token)

/-- `s.toLowerCase()`. Letters `A`-`Z` are mapped to `a`-`z`; the Unicode
lower-casing of JavaScript moves no other character onto `.`, `p`, `d` or
`f`, so the suffix test below sees the same answer. -/
def toLowerCase (s : String) : String := ⟨s.data.map Char.toLower⟩

/-- `s.endsWith(suffix)`. -/
def endsWith (s suffix : String) : Bool := suffix.data.isSuffixOf s.data

/-- The text of the notification at line 39. -/
def pdfRequired : String := "Veuillez déposer un fichier PDF."

/-- `alert(msg)`: the message is shown (recorded) and the script resumes. -/
def alert (msg : String) (s : Page) : Page :=
  { s with alerts := s.alerts ++ [msg] }

/-- Lines 7-13. -/
def setFile (file : File) (s : Page) : Page :=
  let dt := DataTransfer.new
  let dt := dt.add file
  let s := { s with files := dt.files }
  let s := { s with textContent := file.name }
  { s with disabled := false }

/-- The test of line 36: `file.type === 'application/pdf' ||
file.name.toLowerCase().endsWith('.pdf')`. -/
def isPdf (file : File) : Bool :=
  file.type == "application/pdf" || endsWith (toLowerCase file.name) ".pdf"

/-- Lines 17-21, the listener registered for `dragenter` and `dragover`. -/
def hoverListener (e : DragEvent) (s : Page) : DragEvent × Page :=
  let e := e.preventDefault
  let e := e.stopPropagation
  (e, { s with classList := classListAdd s.classList "hover" })

/-- Lines 25-29, the listener registered for `dragleave` and `drop`. -/
def leaveListener (e : DragEvent) (s : Page) : DragEvent × Page :=
  let e := e.preventDefault
  let e := e.stopPropagation
  (e, { s with classList := classListRemove s.classList "hover" })

/-- Lines 32-42, the second listener registered for `drop`. -/
def dropListener (e : DragEvent) (s : Page) : DragEvent × Page :=
  match e.files with
  | none => (e, s)
  | some files =>
    if h : files.length > 0 then
      let file := files[0]
      if isPdf file then (e, setFile file s) else (e, alert pdfRequired s)
    else (e, s)

/-- Lines 45-49, the listener registered for `change` on the file input.
`fileInput.files` of a file input is a `FileList` object, always truthy, so
the guard is the length test. -/
def changeListener (s : Page) : Page :=
  if h : s.files.length > 0 then setFile s.files[0] s else s

/-- A `dragenter` or `dragover` event on the drop zone: its one listener. -/
def onDragenter (e : DragEvent) (s : Page) : DragEvent × Page := hoverListener e s

/-- See `onDragenter`: line 16 registers the same listener for both. -/
def onDragover (e : DragEvent) (s : Page) : DragEvent × Page := hoverListener e s

/-- A `dragleave` event on the drop zone: its one listener. -/
def onDragleave (e : DragEvent) (s : Page) : DragEvent × Page := leaveListener e s

/-- A `drop` event on the drop zone: the listener of lines 25-29 was
registered first and runs first, then the listener of lines 32-42. -/
def onDrop (e : DragEvent) (s : Page) : DragEvent × Page :=
  let r := leaveListener e s
  dropListener r.1 r.2

/-- A `change` event of the file picker: the browser has stored the user's
selection in `fileInput.files` before the listener runs. -/
def onChange (selection : List File) (s : Page) : Page :=
  changeListener { s with files := selection }

/-- A drag event on the drop zone: the listeners registered for its type
run, in the order of their registration. -/
def dispatchDrag (e : DragEvent) (s : Page) : DragEvent × Page :=
  match e.type with
  | .dragenter => onDragenter e s
  | .dragover => onDragover e s
  | .dragleave => onDragleave e s
  | .drop => onDrop e s

/-- The user-input events the script listens to: a drag event of one of the
four types on the drop zone, or a change event of the file picker. -/
inductive Event where
  | drag (e : DragEvent)
  | change (selection : List File)
  deriving DecidableEq

/-- One event handled to completion. `dropzone` tells whether line 2 found
the element: line 15 registers the drag listeners only then. -/
def dispatch (dropzone : Bool) (ev : Event) (s : Page) : Page :=
  match ev with
  | .drag e => if dropzone then (dispatchDrag e s).2 else s
  | .change selection => onChange selection s

/-- A finite sequence of events, handled one after the other. -/
def run (dropzone : Bool) (evs : List Event) (s : Page) : Page :=
  evs.foldl (fun s ev => dispatch dropzone ev s) s

/-- The observable state "no file selected". -/
def NoFileSelected (s : Page) : Prop := s.files = [] ∧ s.disabled = true

/-- The observable state "file selected". -/
def FileSelected (s : Page) : Prop :=
  ∃ f, s.files = [f] ∧ s.disabled = false ∧ s.textContent = f.name

/-- The page every closed example starts from: nothing selected, submit
disabled, no class on the drop zone, no notification shown. -/
def emptyPage : Page := ⟨[], "", true, [], []⟩

/-- A drop event carrying the given files, before any listener has run. -/
def dragEventOf (files : List File) : DragEvent := ⟨.drop, some files, false, false⟩

/-- A drag event of the given type carrying no file, before any listener
has run. -/
def dragEventOfType (type : DragType) : DragEvent := ⟨type, some [], false, false⟩

/-! ## Helper lemmas -/

theorem dropListener_cons (e : DragEvent) (s : Page) (f : File) (rest : List File)
    (h : e.files = some (f :: rest)) :
    dropListener e s = if isPdf f then (e, setFile f s) else (e, alert pdfRequired s) := by
  simp [dropListener, h]

theorem preventDefault_files (e : DragEvent) : e.preventDefault.files = e.files := by
  unfold DragEvent.preventDefault
  split <;> rfl

theorem preventDefault_of_cancelable (e : DragEvent) (h : e.cancelable = true) :
    e.preventDefault.defaultPrevented = true := by
  simp [DragEvent.preventDefault, h]

theorem preventDefault_of_not_cancelable (e : DragEvent) (h : e.cancelable = false) :
    e.preventDefault = e := by
  simp [DragEvent.preventDefault, h]

theorem hoverListener_defaultPrevented (e : DragEvent) (s : Page) :
    (hoverListener e s).1.defaultPrevented = e.preventDefault.defaultPrevented := rfl

theorem leaveListener_defaultPrevented (e : DragEvent) (s : Page) :
    (leaveListener e s).1.defaultPrevented = e.preventDefault.defaultPrevented := rfl

theorem leaveListener_files (e : DragEvent) (s : Page) :
    (leaveListener e s).1.files = e.files :=
  preventDefault_files e

theorem onDrop_cons (e : DragEvent) (s : Page) (f : File) (rest : List File)
    (h : e.files = some (f :: rest)) :
    (onDrop e s).2 =
      if isPdf f then setFile f (leaveListener e s).2
      else alert pdfRequired (leaveListener e s).2 := by
  have h2 : (leaveListener e s).1.files = some (f :: rest) := by
    rw [leaveListener_files]; exact h
  unfold onDrop
  simp only [dropListener_cons _ _ f rest h2]
  split <;> rfl

theorem isPdf_of_type (f : File) (h : f.type = "application/pdf") : isPdf f = true := by
  simp [isPdf, h]

theorem isPdf_of_name (f : File) (h : endsWith (toLowerCase f.name) ".pdf" = true) :
    isPdf f = true := by
  simp [isPdf, h]

theorem isPdf_false (f : File) (ht : f.type ≠ "application/pdf")
    (hn : endsWith (toLowerCase f.name) ".pdf" = false) : isPdf f = false := by
  simp [isPdf, ht, hn]

theorem dropListener_fst (e : DragEvent) (s : Page) : (dropListener e s).1 = e := by
  unfold dropListener
  split
  · rfl
  · split
    · dsimp only
      split <;> rfl
    · rfl

theorem dropListener_classList (e : DragEvent) (s : Page) :
    (dropListener e s).2.classList = s.classList := by
  unfold dropListener
  split
  · rfl
  · split
    · dsimp only
      split <;> rfl
    · rfl

theorem dropListener_empty (e : DragEvent) (s : Page)
    (h : e.files = none ∨ e.files = some []) : dropListener e s = (e, s) := by
  rcases h with h | h <;> simp [dropListener, h]

theorem mem_classListAdd (cl : List String) (token : String) :
    token ∈ classListAdd cl token := by
  unfold classListAdd
  split
  · assumption
  · simp

theorem not_mem_classListRemove (cl : List String) (token : String) :
    token ∉ classListRemove cl token := by
  simp [classListRemove]

theorem run_cons (dropzone : Bool) (ev : Event) (evs : List Event) (s : Page) :
    run dropzone (ev :: evs) s = run dropzone evs (dispatch dropzone ev s) := rfl

theorem fileSelected_setFile (f : File) (s : Page) : FileSelected (setFile f s) :=
  ⟨f, rfl, rfl, rfl⟩

/-- What one event can do to the file list, the label and the submit flag:
leave all three alone, commit a file, or (a change event with an empty
selection) empty the file list and leave the other two alone. -/
theorem dispatch_cases (dropzone : Bool) (ev : Event) (s : Page) :
    ((dispatch dropzone ev s).files = s.files ∧
        (dispatch dropzone ev s).textContent = s.textContent ∧
        (dispatch dropzone ev s).disabled = s.disabled) ∨
      FileSelected (dispatch dropzone ev s) ∨
      (ev = Event.change [] ∧ (dispatch dropzone ev s).files = []) := by
  cases ev with
  | drag e =>
    cases dropzone with
    | false => exact Or.inl ⟨rfl, rfl, rfl⟩
    | true =>
      simp only [dispatch, if_true]
      unfold dispatchDrag
      split
      · exact Or.inl ⟨rfl, rfl, rfl⟩
      · exact Or.inl ⟨rfl, rfl, rfl⟩
      · exact Or.inl ⟨rfl, rfl, rfl⟩
      · rcases hf : e.files with _ | files
        · have h := dropListener_empty (leaveListener e s).1 (leaveListener e s).2
            (Or.inl (by rw [leaveListener_files]; exact hf))
          left
          unfold onDrop
          simp only [h]
          exact ⟨rfl, rfl, rfl⟩
        · cases files with
          | nil =>
            have h := dropListener_empty (leaveListener e s).1 (leaveListener e s).2
              (Or.inr (by rw [leaveListener_files]; exact hf))
            left
            unfold onDrop
            simp only [h]
            exact ⟨rfl, rfl, rfl⟩
          | cons f rest =>
            rw [onDrop_cons e s f rest hf]
            cases isPdf f with
            | true => exact Or.inr (Or.inl (fileSelected_setFile _ _))
            | false => exact Or.inl ⟨rfl, rfl, rfl⟩
  | change selection =>
    cases selection with
    | nil => exact Or.inr (Or.inr ⟨rfl, rfl⟩)
    | cons f rest =>
      refine Or.inr (Or.inl ⟨f, ?_, ?_, ?_⟩) <;>
        simp [dispatch, onChange, changeListener, setFile, DataTransfer.new, DataTransfer.add]

theorem dispatch_weak (dropzone : Bool) (ev : Event) (s : Page)
    (h : s.files = [] ∨ FileSelected s) :
    (dispatch dropzone ev s).files = [] ∨ FileSelected (dispatch dropzone ev s) := by
  rcases dispatch_cases dropzone ev s with ⟨hf, ht, hd⟩ | hsel | ⟨_, hnil⟩
  · rcases h with h | ⟨f, h1, h2, h3⟩
    · exact Or.inl (hf.trans h)
    · exact Or.inr ⟨f, hf.trans h1, hd.trans h2, ht.trans h3⟩
  · exact Or.inr hsel
  · exact Or.inl hnil

theorem dispatch_two_states (dropzone : Bool) (ev : Event) (s : Page)
    (hev : ev ≠ Event.change []) (h : NoFileSelected s ∨ FileSelected s) :
    NoFileSelected (dispatch dropzone ev s) ∨ FileSelected (dispatch dropzone ev s) := by
  rcases dispatch_cases dropzone ev s with ⟨hf, ht, hd⟩ | hsel | ⟨hc, _⟩
  · rcases h with ⟨h1, h2⟩ | ⟨f, h1, h2, h3⟩
    · exact Or.inl ⟨hf.trans h1, hd.trans h2⟩
    · exact Or.inr ⟨f, hf.trans h1, hd.trans h2, ht.trans h3⟩
  · exact Or.inr hsel
  · exact absurd hc hev

theorem run_weak (dropzone : Bool) (evs : List Event) (s : Page)
    (h : s.files = [] ∨ FileSelected s) :
    (run dropzone evs s).files = [] ∨ FileSelected (run dropzone evs s) := by
  induction evs generalizing s with
  | nil => exact h
  | cons ev evs ih =>
    rw [run_cons]
    exact ih _ (dispatch_weak dropzone ev s h)

theorem run_two_states (dropzone : Bool) (evs : List Event) (s : Page)
    (hevs : Event.change [] ∉ evs) (h : NoFileSelected s ∨ FileSelected s) :
    NoFileSelected (run dropzone evs s) ∨ FileSelected (run dropzone evs s) := by
  induction evs generalizing s with
  | nil => exact h
  | cons ev evs ih =>
    rw [run_cons]
    have hne : ev ≠ Event.change [] := fun hc => hevs (hc ▸ List.mem_cons_self _ _)
    exact ih _ (fun hm => hevs (List.mem_cons_of_mem _ hm))
      (dispatch_two_states dropzone ev s hne h)

/-! ## Commit selection -/

/-- C1: for every file and every prior page, `setFile` leaves the file list
of the file input equal to the one-element list holding that file, the label
text equal to the file's name, and the submit button enabled. -/
theorem setFile_commits (f : File) (s : Page) :
    (setFile f s).files = [f] ∧ (setFile f s).textContent = f.name ∧
      (setFile f s).disabled = false :=
  ⟨rfl, rfl, rfl⟩

/-- C8: committing the same file twice in succession gives the same page as
committing it once. -/
theorem setFile_idempotent (f : File) (s : Page) :
    setFile f (setFile f s) = setFile f s := rfl

/-! ## Drop handling -/

/-- C2: a drop whose first file has type exactly `application/pdf` commits
that file (file list, label, submit enabled) and shows no notification,
whatever the file's name is. -/
theorem drop_pdf_type_commits (e : DragEvent) (s : Page) (f : File) (rest : List File)
    (hfiles : e.files = some (f :: rest)) (htype : f.type = "application/pdf") :
    (dropListener e s).2 = setFile f s ∧
      (onDrop e s).2.files = [f] ∧ (onDrop e s).2.textContent = f.name ∧
      (onDrop e s).2.disabled = false ∧ (onDrop e s).2.alerts = s.alerts := by
  have hp := isPdf_of_type f htype
  refine ⟨by simp [dropListener_cons e s f rest hfiles, hp], ?_⟩
  rw [onDrop_cons e s f rest hfiles, if_pos hp]
  exact ⟨rfl, rfl, rfl, rfl⟩

theorem drop_pdf_type_commits_witness :
    (dragEventOf [⟨"", "application/pdf"⟩]).files = some [⟨"", "application/pdf"⟩] ∧
      (onDrop (dragEventOf [⟨"", "application/pdf"⟩]) emptyPage).2.files
        = [⟨"", "application/pdf"⟩] ∧
      (onDrop (dragEventOf [⟨"", "application/pdf"⟩]) emptyPage).2.disabled = false ∧
      (onDrop (dragEventOf [⟨"", "application/pdf"⟩]) emptyPage).2.alerts = [] :=
  have h := drop_pdf_type_commits (dragEventOf [⟨"", "application/pdf"⟩]) emptyPage
    ⟨"", "application/pdf"⟩ [] rfl rfl
  ⟨rfl, h.2.1, h.2.2.2.1, h.2.2.2.2⟩

/-- C3: a drop whose first file has a name that, lower-cased, ends with
`.pdf` commits that file and shows no notification, whatever its declared
type is; `Report.PDF`, `a.PdF` and the bare `.pdf` are such names. -/
theorem drop_pdf_name_commits (e : DragEvent) (s : Page) (f : File) (rest : List File)
    (hfiles : e.files = some (f :: rest))
    (hname : endsWith (toLowerCase f.name) ".pdf" = true) :
    ((dropListener e s).2 = setFile f s ∧
      (onDrop e s).2.files = [f] ∧ (onDrop e s).2.textContent = f.name ∧
      (onDrop e s).2.disabled = false ∧ (onDrop e s).2.alerts = s.alerts) ∧
      endsWith (toLowerCase "Report.PDF") ".pdf" = true ∧
      endsWith (toLowerCase "a.PdF") ".pdf" = true ∧
      endsWith (toLowerCase ".pdf") ".pdf" = true := by
  have hp := isPdf_of_name f hname
  refine ⟨⟨by simp [dropListener_cons e s f rest hfiles, hp], ?_⟩, by decide, by decide, by decide⟩
  rw [onDrop_cons e s f rest hfiles, if_pos hp]
  exact ⟨rfl, rfl, rfl, rfl⟩

theorem drop_pdf_name_commits_witness :
    endsWith (toLowerCase "Report.PDF") ".pdf" = true ∧
      (onDrop (dragEventOf [⟨"Report.PDF", ""⟩]) emptyPage).2.files = [⟨"Report.PDF", ""⟩] ∧
      (onDrop (dragEventOf [⟨"Report.PDF", ""⟩]) emptyPage).2.textContent = "Report.PDF" ∧
      (onDrop (dragEventOf [⟨"Report.PDF", ""⟩]) emptyPage).2.disabled = false ∧
      (onDrop (dragEventOf [⟨"Report.PDF", ""⟩]) emptyPage).2.alerts = [] :=
  have h := drop_pdf_name_commits (dragEventOf [⟨"Report.PDF", ""⟩]) emptyPage
    ⟨"Report.PDF", ""⟩ [] rfl (by decide)
  ⟨by decide, h.1.2⟩

/-- C4: a drop whose first file has a type other than `application/pdf` and
a lower-cased name that does not end with `.pdf` shows the notification
once and leaves the file list, the label and the submit flag as they were. -/
theorem drop_rejected (e : DragEvent) (s : Page) (f : File) (rest : List File)
    (hfiles : e.files = some (f :: rest)) (htype : f.type ≠ "application/pdf")
    (hname : endsWith (toLowerCase f.name) ".pdf" = false) :
    (dropListener e s).2 = alert pdfRequired s ∧
      (onDrop e s).2.alerts = s.alerts ++ [pdfRequired] ∧
      (onDrop e s).2.files = s.files ∧ (onDrop e s).2.textContent = s.textContent ∧
      (onDrop e s).2.disabled = s.disabled := by
  have hp := isPdf_false f htype hname
  refine ⟨by simp [dropListener_cons e s f rest hfiles, hp], ?_⟩
  rw [onDrop_cons e s f rest hfiles, hp]
  exact ⟨rfl, rfl, rfl, rfl⟩

theorem drop_rejected_witness :
    (⟨"invoice.txt", "text/plain"⟩ : File).type ≠ "application/pdf" ∧
      endsWith (toLowerCase "invoice.txt") ".pdf" = false ∧
      (onDrop (dragEventOf [⟨"invoice.txt", "text/plain"⟩])
        (setFile ⟨"a.pdf", "application/pdf"⟩ emptyPage)).2.alerts = [pdfRequired] ∧
      (onDrop (dragEventOf [⟨"invoice.txt", "text/plain"⟩])
        (setFile ⟨"a.pdf", "application/pdf"⟩ emptyPage)).2.files
        = [⟨"a.pdf", "application/pdf"⟩] :=
  have h := drop_rejected (dragEventOf [⟨"invoice.txt", "text/plain"⟩])
    (setFile ⟨"a.pdf", "application/pdf"⟩ emptyPage) ⟨"invoice.txt", "text/plain"⟩ []
    rfl (by decide) (by decide)
  ⟨by decide, by decide, h.2.1, h.2.2.1⟩

/-- C5: a drop whose file list is empty or absent leaves the file list, the
label and the submit flag unchanged and shows no notification. -/
theorem drop_empty_ignored (e : DragEvent) (s : Page)
    (hfiles : e.files = none ∨ e.files = some []) :
    (dropListener e s).2 = s ∧
      (onDrop e s).2.files = s.files ∧ (onDrop e s).2.textContent = s.textContent ∧
      (onDrop e s).2.disabled = s.disabled ∧ (onDrop e s).2.alerts = s.alerts := by
  have h2 : (leaveListener e s).1.files = none ∨ (leaveListener e s).1.files = some [] := by
    rw [leaveListener_files]; exact hfiles
  refine ⟨by rw [dropListener_empty e s hfiles], ?_⟩
  unfold onDrop
  simp only [dropListener_empty _ _ h2]
  exact ⟨rfl, rfl, rfl, rfl⟩

theorem drop_empty_ignored_witness :
    (onDrop (dragEventOf []) (setFile ⟨"a.pdf", ""⟩ emptyPage)).2.files = [⟨"a.pdf", ""⟩] ∧
      (onDrop (dragEventOf []) (setFile ⟨"a.pdf", ""⟩ emptyPage)).2.textContent = "a.pdf" ∧
      (onDrop (dragEventOf []) (setFile ⟨"a.pdf", ""⟩ emptyPage)).2.disabled = false ∧
      (onDrop (dragEventOf []) (setFile ⟨"a.pdf", ""⟩ emptyPage)).2.alerts = [] :=
  (drop_empty_ignored (dragEventOf []) (setFile ⟨"a.pdf", ""⟩ emptyPage) (Or.inr rfl)).2

/-- C10: the outcome of a drop depends only on the first file of its list:
two non-empty lists with the same first file give the same page; the drop of
`notes.txt` (text/plain) followed by `invoice.pdf` (application/pdf) is
rejected; an accepted drop of several files leaves exactly the first one
selected and shows no notification. -/
theorem drop_first_file_only (s : Page) (e₁ e₂ : DragEvent) (f : File) (r₁ r₂ : List File)
    (h₁ : e₁.files = some (f :: r₁)) (h₂ : e₂.files = some (f :: r₂)) :
    (onDrop e₁ s).2 = (onDrop e₂ s).2 ∧
      (e₁.files = some [⟨"notes.txt", "text/plain"⟩, ⟨"invoice.pdf", "application/pdf"⟩] →
        (onDrop e₁ s).2.alerts = s.alerts ++ [pdfRequired] ∧
        (onDrop e₁ s).2.files = s.files ∧ (onDrop e₁ s).2.textContent = s.textContent ∧
        (onDrop e₁ s).2.disabled = s.disabled) ∧
      (isPdf f = true →
        (onDrop e₁ s).2.files = [f] ∧ (onDrop e₁ s).2.alerts = s.alerts) := by
  refine ⟨?_, ?_, ?_⟩
  · rw [onDrop_cons e₁ s f r₁ h₁, onDrop_cons e₂ s f r₂ h₂]
    rfl
  · intro h
    rw [onDrop_cons e₁ s _ _ h, if_neg (by decide)]
    exact ⟨rfl, rfl, rfl, rfl⟩
  · intro hp
    rw [onDrop_cons e₁ s f r₁ h₁, if_pos hp]
    exact ⟨rfl, rfl⟩

theorem drop_first_file_only_witness :
    (onDrop (dragEventOf [⟨"notes.txt", "text/plain"⟩, ⟨"invoice.pdf", "application/pdf"⟩])
        emptyPage).2
      = (onDrop (dragEventOf [⟨"notes.txt", "text/plain"⟩]) emptyPage).2 ∧
      (onDrop (dragEventOf [⟨"notes.txt", "text/plain"⟩, ⟨"invoice.pdf", "application/pdf"⟩])
        emptyPage).2.alerts = [pdfRequired] :=
  have h := drop_first_file_only emptyPage
    (dragEventOf [⟨"notes.txt", "text/plain"⟩, ⟨"invoice.pdf", "application/pdf"⟩])
    (dragEventOf [⟨"notes.txt", "text/plain"⟩]) ⟨"notes.txt", "text/plain"⟩
    [⟨"invoice.pdf", "application/pdf"⟩] [] rfl rfl
  ⟨h.1, (h.2.1 rfl).1⟩

/-! ## Picker handling -/

/-- C6: a change event of the picker with a non-empty file list commits the
first file of the list without any test of its type or name: the file list
becomes that one file, the label its name, submit is enabled and no
notification is shown. -/
theorem change_commits_first (selection : List File) (s : Page) (h : selection ≠ []) :
    (s.files = selection → changeListener s = setFile (selection.head h) s) ∧
      (onChange selection s).files = [selection.head h] ∧
      (onChange selection s).textContent = (selection.head h).name ∧
      (onChange selection s).disabled = false ∧
      (onChange selection s).alerts = s.alerts := by
  cases selection with
  | nil => exact absurd rfl h
  | cons f rest =>
    refine ⟨?_, ?_⟩
    · intro hs
      simp [changeListener, hs]
    · simp [onChange, changeListener, setFile, DataTransfer.new, DataTransfer.add]

theorem change_commits_first_witness :
    (onChange [⟨"notes.txt", "text/plain"⟩] emptyPage).files = [⟨"notes.txt", "text/plain"⟩] ∧
      (onChange [⟨"notes.txt", "text/plain"⟩] emptyPage).textContent = "notes.txt" ∧
      (onChange [⟨"notes.txt", "text/plain"⟩] emptyPage).disabled = false ∧
      (onChange [⟨"notes.txt", "text/plain"⟩] emptyPage).alerts = [] :=
  (change_commits_first [⟨"notes.txt", "text/plain"⟩] emptyPage (by simp)).2

/-! ## Hover feedback -/

/-- C7, as the script behaves: after a `dragenter` or `dragover` event the
event's default is prevented and the class `hover` is present; after a
`drop` event the default is prevented and the class is absent, whatever the
event's file list is and whatever becomes of the dropped file; after a
`dragleave` event the class is absent, and the event, which is not
cancelable, keeps the `defaultPrevented` flag it had: the call of line 26
does nothing to it. -/
theorem hover_feedback (e : DragEvent) (s : Page) :
    (e.type = DragType.dragenter →
        (dispatchDrag e s).1.defaultPrevented = true ∧
          "hover" ∈ (dispatchDrag e s).2.classList) ∧
      (e.type = DragType.dragover →
        (dispatchDrag e s).1.defaultPrevented = true ∧
          "hover" ∈ (dispatchDrag e s).2.classList) ∧
      (e.type = DragType.dragleave →
        (dispatchDrag e s).1.defaultPrevented = e.defaultPrevented ∧
          "hover" ∉ (dispatchDrag e s).2.classList) ∧
      (e.type = DragType.drop →
        (dispatchDrag e s).1.defaultPrevented = true ∧
          "hover" ∉ (dispatchDrag e s).2.classList) ∧
      "hover" ∈ (onDragenter e s).2.classList ∧ "hover" ∈ (onDragover e s).2.classList ∧
      "hover" ∉ (onDragleave e s).2.classList ∧ "hover" ∉ (onDrop e s).2.classList := by
  have hdrop : "hover" ∉ (onDrop e s).2.classList := by
    unfold onDrop
    rw [dropListener_classList]
    exact not_mem_classListRemove _ _
  refine ⟨?_, ?_, ?_, ?_, mem_classListAdd _ _, mem_classListAdd _ _,
    not_mem_classListRemove _ _, hdrop⟩
  · intro ht
    have hc : e.cancelable = true := by simp [DragEvent.cancelable, ht, DragType.cancelable]
    simp only [dispatchDrag, ht, onDragenter]
    exact ⟨(hoverListener_defaultPrevented e s).trans (preventDefault_of_cancelable e hc),
      mem_classListAdd _ _⟩
  · intro ht
    have hc : e.cancelable = true := by simp [DragEvent.cancelable, ht, DragType.cancelable]
    simp only [dispatchDrag, ht, onDragover]
    exact ⟨(hoverListener_defaultPrevented e s).trans (preventDefault_of_cancelable e hc),
      mem_classListAdd _ _⟩
  · intro ht
    have hc : e.cancelable = false := by simp [DragEvent.cancelable, ht, DragType.cancelable]
    simp only [dispatchDrag, ht, onDragleave]
    refine ⟨?_, not_mem_classListRemove _ _⟩
    rw [leaveListener_defaultPrevented, preventDefault_of_not_cancelable e hc]
  · intro ht
    have hc : e.cancelable = true := by simp [DragEvent.cancelable, ht, DragType.cancelable]
    simp only [dispatchDrag, ht]
    refine ⟨?_, hdrop⟩
    unfold onDrop
    rw [dropListener_fst]
    exact (leaveListener_defaultPrevented e s).trans (preventDefault_of_cancelable e hc)

theorem hover_feedback_witness :
    (dragEventOfType DragType.dragover).type = DragType.dragover ∧
      (dispatchDrag (dragEventOfType DragType.dragover) emptyPage).1.defaultPrevented = true ∧
      "hover" ∈ (dispatchDrag (dragEventOfType DragType.dragover) emptyPage).2.classList :=
  ⟨rfl, (hover_feedback (dragEventOfType DragType.dragover) emptyPage).2.1 rfl⟩

/-- C7 as stated fails: the `dragleave` event the browser dispatches is not
cancelable, so after the listener of lines 25-29 has run its default is not
prevented (the class `hover` is removed all the same). -/
theorem dragleave_default_not_prevented :
    (dragEventOfType DragType.dragleave).cancelable = false ∧
      (dispatchDrag (dragEventOfType DragType.dragleave)
        ⟨[], "", true, ["hover"], []⟩).1.defaultPrevented = false ∧
      (dispatchDrag (dragEventOfType DragType.dragleave)
        ⟨[], "", true, ["hover"], []⟩).2.classList = [] := by
  refine ⟨rfl, by decide, by decide⟩

/-! ## Reachable states -/

/-- C9, as the script behaves: from a page with nothing selected and submit
disabled, every page reached by a finite sequence of events has a file list
that is empty or holds exactly one file, and when it holds a file submit is
enabled and the label is that file's name; when no change event of the
sequence has an empty selection, the page is in one of the two states
"no file selected" and "file selected"; a change event with an empty
selection empties the file list and leaves the label, the submit flag and
everything else on the page as they were. -/
theorem reachable_states (dropzone : Bool) (evs : List Event) (s : Page)
    (h0 : NoFileSelected s) :
    ((run dropzone evs s).files = [] ∨ FileSelected (run dropzone evs s)) ∧
      (Event.change [] ∉ evs →
        NoFileSelected (run dropzone evs s) ∨ FileSelected (run dropzone evs s)) ∧
      (∀ t : Page, changeListener { t with files := [] } = { t with files := [] }) ∧
      (∀ t : Page, onChange [] t = { t with files := [] }) ∧
      dispatch dropzone (Event.change []) (run dropzone evs s)
        = { run dropzone evs s with files := [] } :=
  ⟨run_weak dropzone evs s (Or.inl h0.1),
    fun hevs => run_two_states dropzone evs s hevs (Or.inl h0),
    fun _ => rfl, fun _ => rfl, rfl⟩

theorem reachable_states_witness :
    NoFileSelected emptyPage ∧
      FileSelected (run true
        [Event.drag (dragEventOfType DragType.dragenter),
          Event.drag (dragEventOf [⟨"b.PDF", ""⟩]),
          Event.change [⟨"a.txt", "text/plain"⟩, ⟨"c.txt", "text/plain"⟩]] emptyPage) :=
  have h0 : NoFileSelected emptyPage := ⟨rfl, rfl⟩
  have h := (reachable_states true
    [Event.drag (dragEventOfType DragType.dragenter),
      Event.drag (dragEventOf [⟨"b.PDF", ""⟩]),
      Event.change [⟨"a.txt", "text/plain"⟩, ⟨"c.txt", "text/plain"⟩]] emptyPage h0).2.1
    (by decide)
  ⟨h0, h.resolve_left (fun hn => absurd hn.2 (by decide))⟩

/-- C9 as stated fails: from the page with nothing selected, picking a file
and then a change event with an empty selection gives a page whose file list
is empty while submit is enabled and the label still shows the file's name,
which is neither of the two states. -/
theorem reachable_third_state :
    NoFileSelected emptyPage ∧
      (run true [Event.change [⟨"a.pdf", "application/pdf"⟩], Event.change []] emptyPage).files
        = [] ∧
      (run true [Event.change [⟨"a.pdf", "application/pdf"⟩], Event.change []] emptyPage).disabled
        = false ∧
      (run true [Event.change [⟨"a.pdf", "application/pdf"⟩], Event.change []]
        emptyPage).textContent = "a.pdf" ∧
      ¬ (NoFileSelected
          (run true [Event.change [⟨"a.pdf", "application/pdf"⟩], Event.change []] emptyPage) ∨
        FileSelected
          (run true [Event.change [⟨"a.pdf", "application/pdf"⟩], Event.change []] emptyPage)) := by
  have hnil : (run true [Event.change [⟨"a.pdf", "application/pdf"⟩], Event.change []]
      emptyPage).files = [] := by decide
  refine ⟨⟨rfl, rfl⟩, hnil, by decide, by decide, ?_⟩
  rintro (⟨_, hd⟩ | ⟨f, hf, _, _⟩)
  · exact absurd hd (by decide)
  · exact List.cons_ne_nil f [] (hf.symm.trans hnil)

end TransfoPdf
